import Mathlib

/-!
Verification of the EdgeCloudSim energy-aware offloading simulator
(`scripts/energy_aware/python/quick_simulation.py`, with the
`GreedyDeadlineAlgorithm` variant from
`scripts/energy_aware/python/energy_aware_simulation.py`).

The Python code is shallowly embedded over `ℚ`: Python floats become
rationals, mutable objects become explicit state passing, and the
global random stream becomes an explicit list of uniform draws that is
consumed head-first.  Python's `min(dict, key=dict.get)` (first key with
minimal value wins ties, in insertion order) is embedded as a left fold
that replaces the accumulator only on a strictly smaller value, and the
IEEE value `float('inf')` used by the EADC scoring is embedded as `none`
in `Option ℚ`.
-/

/-- Execution locations, mirroring `DeviceType` (MOBILE/EDGE/CLOUD). -/
inductive Loc where
  | MOBILE
  | EDGE
  | CLOUD
deriving DecidableEq, Repr

/-- The five offloading policies of `POLICIES` in `quick_simulation.py`. -/
inductive Policy where
  | EADC
  | GREEDY_ENERGY
  | GREEDY_DEADLINE
  | RANDOM
  | EDGE_ONLY
deriving DecidableEq, Repr

/-- Simulation configuration, mirroring the `SimConfig` dataclass of
`quick_simulation.py` (fields not read by the simulation loop body are
kept for completeness). -/
structure SimConfig where
  simulation_time : ℚ := 300
  warm_up_period : ℚ := 30
  mobile_power_idle : ℚ := 0.3
  mobile_power_active : ℚ := 1.8
  mobile_power_transmit : ℚ := 1.2
  mobile_mips : ℚ := 500
  edge_mips : ℚ := 8000
  cloud_mips : ℚ := 20000
  wlan_bandwidth : ℚ := 50
  wan_bandwidth : ℚ := 20
  wan_propagation_delay : ℚ := 0.08
  num_edge_servers : ℕ := 5
  max_edge_queue : ℕ := 15
  alpha : ℚ := 0.6
  beta : ℚ := 0.4
deriving Repr

/-- Edge server state, mirroring the mutable fields of class
`EdgeServer` in `quick_simulation.py`. -/
structure Server where
  server_id : ℕ
  mips : ℚ
  max_queue : ℕ
  queued_processing_times : List ℚ
  next_available : ℚ
  total_busy_time : ℚ
deriving DecidableEq, Repr

/-- `EdgeServer.__init__`: fresh server with an empty queue. -/
def initServer (server_id : ℕ) (mips : ℚ) (max_queue : ℕ) : Server :=
  { server_id := server_id
    mips := mips
    max_queue := max_queue
    queued_processing_times := []
    next_available := 0
    total_busy_time := 0 }

/-- `EdgeServer.get_queue_length`. -/
def get_queue_length (s : Server) : ℕ :=
  s.queued_processing_times.length

/-- `EdgeServer.get_utilization`. -/
def get_utilization (s : Server) (current_time : ℚ) : ℚ :=
  if current_time ≤ 0 then 0
  else min 100 (s.total_busy_time / current_time * 100)

/-- `EdgeServer.estimate_wait_time`:
`max(0, next_available - current_time) + sum(queued_processing_times)`. -/
def estimate_wait_time (s : Server) (current_time : ℚ) : ℚ :=
  max 0 (s.next_available - current_time) + s.queued_processing_times.sum

/-- `EdgeServer.can_accept_task`: queue strictly below capacity. -/
def can_accept_task (s : Server) : Bool :=
  get_queue_length s < s.max_queue

/-- `EdgeServer.submit_task`.  Returns
`(total_time?, rejected_flag, new server state)`: `(none, true, s)` on
rejection (Python `return None, True`), otherwise appends the processing
time to the queue, pushes `next_available` forward and accumulates busy
time, returning `(some total_time, false, s')`. -/
def submit_task (s : Server) (current_time processing_time : ℚ) :
    Option ℚ × Bool × Server :=
  if ¬ can_accept_task s then (none, true, s)
  else
    let wait_time := max 0 (s.next_available - current_time) +
      s.queued_processing_times.sum
    let total_time := wait_time + processing_time
    (some total_time, false,
      { s with
          queued_processing_times := s.queued_processing_times ++ [processing_time]
          next_available := current_time + total_time
          total_busy_time := s.total_busy_time + processing_time })

/-- The second `while` loop of `EdgeServer.update`: consume `elapsed`
seconds of work FIFO from the queue, partially consuming the head when
`elapsed` falls inside it. -/
def consume (elapsed : ℚ) : List ℚ → List ℚ
  | [] => []
  | x :: xs =>
      if 0 < elapsed then
        if elapsed ≥ x then consume (elapsed - x) xs
        else (x - elapsed) :: xs
      else x :: xs

/-- `EdgeServer.update`.  The first `while` loop pops every queued entry
when `next_available ≤ current_time` (its condition does not change while
it runs); then the elapsed time since the start of the currently queued
work is consumed FIFO. -/
def update (s : Server) (current_time : ℚ) : Server :=
  let q1 := if s.next_available ≤ current_time then []
    else s.queued_processing_times
  let elapsed := if q1 = [] then 0
    else current_time - (s.next_available - q1.sum)
  { s with queued_processing_times := consume elapsed q1 }

/-- Queue-capacity invariant of the spec's data model (§3): the queue
never exceeds the maximum queue depth. -/
def serverInv (s : Server) : Prop :=
  get_queue_length s ≤ s.max_queue

instance (s : Server) : Decidable (serverInv s) := by
  unfold serverInv; infer_instance

/-- Strict comparison of IEEE-style scores where `none` plays the role of
`float('inf')`: a finite value is below `+∞`, and `+∞ < +∞` is false. -/
def oLt : Option ℚ → Option ℚ → Bool
  | none, _ => false
  | some _, none => true
  | some a, some b => a < b

/-- Python's `min(iterable, key=...)` over an association list of
location/score pairs: the fold keeps the current minimum and replaces it
only on a strictly smaller score, so on ties the earlier entry (dict
insertion order) wins. -/
def pickMinO (l : List (Loc × Option ℚ)) : Loc × Option ℚ :=
  match l with
  | [] => (Loc.MOBILE, none)
  | x :: xs => xs.foldl (fun b y => if oLt y.2 b.2 then y else b) x

/-- Dictionary lookup `scores[loc]` for the three-entry score dict. -/
def scoreAt (ls es cs : Option ℚ) : Loc → Option ℚ
  | Loc.MOBILE => ls
  | Loc.EDGE => es
  | Loc.CLOUD => cs

/-- The inner `calc_score` closure of the EADC branch in
`run_simulation` (`quick_simulation.py`): `+∞` (`none`) when the
estimated time misses the deadline, otherwise the weighted sum of the
normalized time and energy (each normalization guarded against a zero
maximum exactly as in the source). -/
def calc_score (adaptive_alpha adaptive_beta max_time max_energy
    time energy : ℚ) (meets_deadline : Bool) : Option ℚ :=
  if meets_deadline then
    some (adaptive_alpha * (if 0 < max_time then time / max_time else 0) +
      adaptive_beta * (if 0 < max_energy then energy / max_energy else 0))
  else none

/-- The three EADC utility scores of the EADC branch of
`run_simulation`: adaptive weights from the delay sensitivity,
normalization constants from the maxima (including the deadline for
time), deadline-infeasible locations at `+∞`, the >70% utilization
penalty on the Edge score, and the Edge score forced to `+∞` when the
best edge server cannot accept the task. -/
def eadcScores (alpha beta delay_sens deadline local_time edge_time
    cloud_time local_energy edge_energy cloud_energy avg_util : ℚ)
    (canAccept : Bool) : Option ℚ × Option ℚ × Option ℚ :=
  let adaptive_alpha := alpha * (1 + delay_sens * 0.5)
  let adaptive_beta := beta * (1 - delay_sens * 0.3)
  let max_time := max (max (max local_time edge_time) cloud_time) deadline
  let max_energy := max (max local_energy edge_energy) cloud_energy
  let local_score := calc_score adaptive_alpha adaptive_beta max_time
    max_energy local_time local_energy (local_time ≤ deadline)
  let edge_score := calc_score adaptive_alpha adaptive_beta max_time
    max_energy edge_time edge_energy (edge_time ≤ deadline)
  let cloud_score := calc_score adaptive_alpha adaptive_beta max_time
    max_energy cloud_time cloud_energy (cloud_time ≤ deadline)
  let edge_score := if 70 < avg_util then
    edge_score.map (fun x => x * (1 + (avg_util - 70) / 50)) else edge_score
  let edge_score := if canAccept then edge_score else none
  (local_score, edge_score, cloud_score)

/-- The deadline-infeasibility fallback of the EADC branch: minimum
estimated time over the three locations, with the Edge entry replaced by
`+∞` when the best edge server cannot accept the task. -/
def fallbackLoc (local_time edge_time cloud_time : ℚ)
    (canAccept : Bool) : Loc :=
  (pickMinO [(Loc.MOBILE, some local_time),
             (Loc.EDGE, if canAccept then some edge_time else none),
             (Loc.CLOUD, some cloud_time)]).1

/-- The complete EADC decision of `run_simulation`
(`quick_simulation.py`, final `else` branch): minimum-score location,
falling back to minimum estimated time when the chosen score is `+∞`. -/
def eadcDecide (alpha beta delay_sens deadline local_time edge_time
    cloud_time local_energy edge_energy cloud_energy avg_util : ℚ)
    (canAccept : Bool) : Loc :=
  let (ls, es, cs) := eadcScores alpha beta delay_sens deadline local_time
    edge_time cloud_time local_energy edge_energy cloud_energy avg_util
    canAccept
  let decision := (pickMinO [(Loc.MOBILE, ls), (Loc.EDGE, es),
    (Loc.CLOUD, cs)]).1
  if scoreAt ls es cs decision = none then
    fallbackLoc local_time edge_time cloud_time canAccept
  else decision

/-- Modelled from the spec's words for claim C2 (to be compared with
`eadcScores`, which is translated from the code): each location scores
`α'·(time/time_norm) + β'·(energy/energy_norm)` with
`α' = α_base·(1 + 0.5 s)` and `β' = β_base·(1 − 0.3 s)`, where
`time_norm` is the maximum of the three estimated times and the
deadline and `energy_norm` is the maximum of the three estimated
energies; a location whose time exceeds the deadline scores `+∞`; when
mean edge utilization exceeds 70 the Edge score is multiplied by
`1 + (utilization − 70)/50`; and the Edge score is forced to `+∞` when
the best edge server cannot accept the task. -/
def eadcScoresSpec (alpha beta delay_sens deadline local_time edge_time
    cloud_time local_energy edge_energy cloud_energy avg_util : ℚ)
    (canAccept : Bool) : Option ℚ × Option ℚ × Option ℚ :=
  let alphaAdapted := alpha * (1 + 0.5 * delay_sens)
  let betaAdapted := beta * (1 - 0.3 * delay_sens)
  let time_norm := max (max (max local_time edge_time) cloud_time) deadline
  let energy_norm := max (max local_energy edge_energy) cloud_energy
  let score : ℚ → ℚ → Option ℚ := fun time energy =>
    if time ≤ deadline then
      some (alphaAdapted * (time / time_norm) +
        betaAdapted * (energy / energy_norm))
    else none
  let local_score := score local_time local_energy
  let edge_score := score edge_time edge_energy
  let cloud_score := score cloud_time cloud_energy
  let edge_score := if 70 < avg_util then
    edge_score.map (fun x => x * (1 + (avg_util - 70) / 50)) else edge_score
  let edge_score := if canAccept then edge_score else none
  (local_score, edge_score, cloud_score)

/-- Python `min(times, key=times.get)` over finite float values: first
key with a strictly minimal value in dict insertion order. -/
def pickMinQ (l : List (Loc × ℚ)) : Loc :=
  match l with
  | [] => Loc.MOBILE
  | x :: xs => (xs.foldl (fun b y => if y.2 < b.2 then y else b) x).1

/-- Dictionary lookup `times[loc]` for the three-entry time dict. -/
def timeAt (lt et ct : ℚ) : Loc → ℚ
  | Loc.MOBILE => lt
  | Loc.EDGE => et
  | Loc.CLOUD => ct

/-- The `GREEDY_DEADLINE` branch of `run_simulation` in
`quick_simulation.py`: directly the minimum-estimated-time location. -/
def greedyDeadlineDirect (local_time edge_time cloud_time : ℚ) : Loc :=
  pickMinQ [(Loc.MOBILE, local_time), (Loc.EDGE, edge_time),
    (Loc.CLOUD, cloud_time)]

/-- `GreedyDeadlineAlgorithm.decide` from
`energy_aware_simulation.py`: restrict to the locations whose estimated
time meets the deadline and take the fastest of those; when none meets
the deadline, fall back to the overall fastest. -/
def greedyDeadlineFiltered (local_time edge_time cloud_time
    deadline : ℚ) : Loc :=
  let times := [(Loc.MOBILE, local_time), (Loc.EDGE, edge_time),
    (Loc.CLOUD, cloud_time)]
  let deadline_options := times.filter (fun p => p.2 ≤ deadline)
  match deadline_options with
  | [] => pickMinQ times
  | x :: xs => (xs.foldl (fun b y => if y.2 < b.2 then y else b) x).1

/-- A task-arrival event as popped from the event heap in
`run_simulation`: `(t, device_id, app, task_len, data_size, deadline)`
with the device id dropped (unused by the loop body) and the
application reduced to its delay sensitivity (its only field the loop
body reads). -/
structure Event where
  t : ℚ
  task_len : ℚ
  data_size : ℚ
  deadline : ℚ
  delay_sens : ℚ
deriving DecidableEq, Repr

/-- The mutable `results` dictionary of `run_simulation`
(`quick_simulation.py`): recorded service times, energies, 0/1
deadline-met flags, and the failure/location/rejection counters. -/
structure Results where
  service_times : List ℚ
  energies : List ℚ
  deadline_met : List ℚ
  failed : ℕ
  localCount : ℕ
  edgeCount : ℕ
  cloudCount : ℕ
  edge_rejected : ℕ
deriving DecidableEq, Repr

/-- The freshly initialized `results` dictionary. -/
def emptyResults : Results := ⟨[], [], [], 0, 0, 0, 0, 0⟩

/-- Placeholder server for out-of-range list indexing (never reached on
the index ranges the loop uses). -/
def dummyServer : Server := initServer 0 0 0

/-- `min(range(len(servers)), key=lambda i: servers[i].estimate_wait_time(t))`:
first index whose estimated wait is minimal. -/
def bestIdx (servers : List Server) (t : ℚ) : ℕ :=
  match (List.range servers.length).map
      (fun i => (i, estimate_wait_time (servers.getD i dummyServer) t)) with
  | [] => 0
  | x :: xs => (xs.foldl (fun b y => if y.2 < b.2 then y else b) x).1

/-- `np.mean([s.get_utilization(t) for s in edge_servers])`. -/
def avgUtil (servers : List Server) (t : ℚ) : ℚ :=
  (servers.map (fun s => get_utilization s t)).sum / (servers.length : ℚ)

/-- The tail of the loop body of `run_simulation`: draw the stochastic
failure event (probability `0.005 + (num_devices/1000)*0.02`); a failure
only bumps the failure counter, otherwise the realized service time,
energy and 0/1 deadline-met flag are appended to the statistics. -/
def recordOutcome (num_devices : ℕ) (servers : List Server)
    (results : Results) (rng : List ℚ)
    (actual_time energy deadline : ℚ) : List Server × Results × List ℚ :=
  let failure_prob : ℚ := 0.005 + ((num_devices : ℚ) / 1000) * 0.02
  let r := rng.headD 0
  let rng := rng.tail
  if r < failure_prob then
    (servers, { results with failed := results.failed + 1 }, rng)
  else
    (servers,
     { results with
         service_times := results.service_times ++ [actual_time]
         energies := results.energies ++ [energy]
         deadline_met := results.deadline_met ++
           [if actual_time ≤ deadline then 1 else 0] }, rng)

/-- The commit stage of the loop body of `run_simulation`: apply the
chosen location's jittered time/energy model, attempting edge admission
(with the pre-check that re-routes a full edge to Cloud and counts an
edge rejection; a rejected `submit_task` after the pre-check bumps the
failure counter and skips the task, mirroring the `continue`). -/
def commitDecision (num_devices : ℕ) (servers : List Server)
    (results : Results) (rng : List ℚ) (decision : Loc) (best : ℕ)
    (t local_time wlan_delay edge_processing cloud_time local_energy
      edge_energy cloud_energy deadline : ℚ) :
    List Server × Results × List ℚ :=
  match decision with
  | Loc.MOBILE =>
      let r := rng.headD 0
      let rng := rng.tail
      let actual_time := local_time * (0.9 + r * 0.2)
      let r2 := rng.headD 0
      let rng := rng.tail
      let energy := local_energy * (0.9 + r2 * 0.2)
      recordOutcome num_devices servers
        { results with localCount := results.localCount + 1 } rng
        actual_time energy deadline
  | Loc.EDGE =>
      if ¬ can_accept_task (servers.getD best dummyServer) then
        let r := rng.headD 0
        let rng := rng.tail
        let actual_time := cloud_time * (0.9 + r * 0.2)
        let r2 := rng.headD 0
        let rng := rng.tail
        let energy := cloud_energy * (0.9 + r2 * 0.2)
        recordOutcome num_devices servers
          { results with
              cloudCount := results.cloudCount + 1
              edge_rejected := results.edge_rejected + 1 } rng
          actual_time energy deadline
      else
        let sub := submit_task (servers.getD best dummyServer) t
          edge_processing
        let servers := servers.set best sub.2.2
        if sub.2.1 then
          (servers, { results with failed := results.failed + 1 }, rng)
        else
          let r := rng.headD 0
          let rng := rng.tail
          let actual_time := (wlan_delay * 2 + sub.1.getD 0) * (0.9 + r * 0.2)
          let r2 := rng.headD 0
          let rng := rng.tail
          let energy := edge_energy * (0.9 + r2 * 0.2)
          recordOutcome num_devices servers
            { results with edgeCount := results.edgeCount + 1 } rng
            actual_time energy deadline
  | Loc.CLOUD =>
      let r := rng.headD 0
      let rng := rng.tail
      let actual_time := cloud_time * (0.9 + r * 0.2)
      let r2 := rng.headD 0
      let rng := rng.tail
      let energy := cloud_energy * (0.9 + r2 * 0.2)
      recordOutcome num_devices servers
        { results with cloudCount := results.cloudCount + 1 } rng
        actual_time energy deadline

/-- One iteration of the event loop of `run_simulation`
(`quick_simulation.py`, lines 169-281): advance all server clocks to the
event's arrival time, skip the rest entirely for pre-warm-up arrivals,
otherwise estimate times/energies for the three locations, pick a
location with the active policy (consuming one uniform draw for
`RANDOM`), and commit the decision. -/
def processEvent (cfg : SimConfig) (policy : Policy) (num_devices : ℕ)
    (st : List Server × Results × List ℚ) (ev : Event) :
    List Server × Results × List ℚ :=
  let servers := (st.1).map (fun s => update s ev.t)
  let results := st.2.1
  let rng := st.2.2
  if ev.t < cfg.warm_up_period then (servers, results, rng)
  else
    let load_factor : ℚ := 1 + ((num_devices : ℚ) / 200) * 0.5
    let local_time := ev.task_len / cfg.mobile_mips * load_factor
    let wlan_delay := ev.data_size * 8 / (cfg.wlan_bandwidth * 1000)
    let edge_processing := ev.task_len / cfg.edge_mips
    let best := bestIdx servers ev.t
    let edge_queue_delay := estimate_wait_time (servers.getD best dummyServer)
      ev.t
    let edge_time := wlan_delay * 2 + edge_processing + edge_queue_delay
    let wan_delay := ev.data_size * 8 / (cfg.wan_bandwidth * 1000) +
      cfg.wan_propagation_delay
    let cloud_processing := ev.task_len / cfg.cloud_mips
    let cloud_time := wan_delay * 2 + cloud_processing
    let local_energy := cfg.mobile_power_active * local_time
    let edge_energy := cfg.mobile_power_transmit * wlan_delay * 2 +
      cfg.mobile_power_idle * (edge_processing + edge_queue_delay)
    let cloud_energy := cfg.mobile_power_transmit * wan_delay * 2 +
      cfg.mobile_power_idle * cloud_processing
    let dr :=
      match policy with
      | Policy.RANDOM =>
          let r := rng.headD 0
          ((if r < 0.33 then Loc.MOBILE
            else if r < 0.66 then Loc.EDGE else Loc.CLOUD), rng.tail)
      | Policy.GREEDY_ENERGY =>
          (pickMinQ [(Loc.MOBILE, local_energy), (Loc.EDGE, edge_energy),
            (Loc.CLOUD, cloud_energy)], rng)
      | Policy.GREEDY_DEADLINE =>
          (greedyDeadlineDirect local_time edge_time cloud_time, rng)
      | Policy.EDGE_ONLY =>
          ((if can_accept_task (servers.getD best dummyServer) then Loc.EDGE
            else Loc.CLOUD), rng)
      | Policy.EADC =>
          (eadcDecide cfg.alpha cfg.beta ev.delay_sens ev.deadline local_time
            edge_time cloud_time local_energy edge_energy cloud_energy
            (avgUtil servers ev.t)
            (can_accept_task (servers.getD best dummyServer)), rng)
    commitDecision num_devices servers results dr.2 dr.1 best ev.t local_time
      wlan_delay edge_processing cloud_time local_energy edge_energy
      cloud_energy ev.deadline

/-- The commit stage with the post-`submit_task` rejection branch
removed: `submit_task`'s result is committed unconditionally after the
`can_accept_task` pre-check.  Used to state that the rejection branch of
`commitDecision` is dead code (claim C10). -/
def commitDecisionNoReject (num_devices : ℕ) (servers : List Server)
    (results : Results) (rng : List ℚ) (decision : Loc) (best : ℕ)
    (t local_time wlan_delay edge_processing cloud_time local_energy
      edge_energy cloud_energy deadline : ℚ) :
    List Server × Results × List ℚ :=
  match decision with
  | Loc.MOBILE =>
      let r := rng.headD 0
      let rng := rng.tail
      let actual_time := local_time * (0.9 + r * 0.2)
      let r2 := rng.headD 0
      let rng := rng.tail
      let energy := local_energy * (0.9 + r2 * 0.2)
      recordOutcome num_devices servers
        { results with localCount := results.localCount + 1 } rng
        actual_time energy deadline
  | Loc.EDGE =>
      if ¬ can_accept_task (servers.getD best dummyServer) then
        let r := rng.headD 0
        let rng := rng.tail
        let actual_time := cloud_time * (0.9 + r * 0.2)
        let r2 := rng.headD 0
        let rng := rng.tail
        let energy := cloud_energy * (0.9 + r2 * 0.2)
        recordOutcome num_devices servers
          { results with
              cloudCount := results.cloudCount + 1
              edge_rejected := results.edge_rejected + 1 } rng
          actual_time energy deadline
      else
        let sub := submit_task (servers.getD best dummyServer) t
          edge_processing
        let servers := servers.set best sub.2.2
        let r := rng.headD 0
        let rng := rng.tail
        let actual_time := (wlan_delay * 2 + sub.1.getD 0) * (0.9 + r * 0.2)
        let r2 := rng.headD 0
        let rng := rng.tail
        let energy := edge_energy * (0.9 + r2 * 0.2)
        recordOutcome num_devices servers
          { results with edgeCount := results.edgeCount + 1 } rng
          actual_time energy deadline
  | Loc.CLOUD =>
      let r := rng.headD 0
      let rng := rng.tail
      let actual_time := cloud_time * (0.9 + r * 0.2)
      let r2 := rng.headD 0
      let rng := rng.tail
      let energy := cloud_energy * (0.9 + r2 * 0.2)
      recordOutcome num_devices servers
        { results with cloudCount := results.cloudCount + 1 } rng
        actual_time energy deadline

/-- One loop iteration built on the rejection-free commit stage. -/
def processEventNoReject (cfg : SimConfig) (policy : Policy)
    (num_devices : ℕ) (st : List Server × Results × List ℚ) (ev : Event) :
    List Server × Results × List ℚ :=
  let servers := (st.1).map (fun s => update s ev.t)
  let results := st.2.1
  let rng := st.2.2
  if ev.t < cfg.warm_up_period then (servers, results, rng)
  else
    let load_factor : ℚ := 1 + ((num_devices : ℚ) / 200) * 0.5
    let local_time := ev.task_len / cfg.mobile_mips * load_factor
    let wlan_delay := ev.data_size * 8 / (cfg.wlan_bandwidth * 1000)
    let edge_processing := ev.task_len / cfg.edge_mips
    let best := bestIdx servers ev.t
    let edge_queue_delay := estimate_wait_time (servers.getD best dummyServer)
      ev.t
    let edge_time := wlan_delay * 2 + edge_processing + edge_queue_delay
    let wan_delay := ev.data_size * 8 / (cfg.wan_bandwidth * 1000) +
      cfg.wan_propagation_delay
    let cloud_processing := ev.task_len / cfg.cloud_mips
    let cloud_time := wan_delay * 2 + cloud_processing
    let local_energy := cfg.mobile_power_active * local_time
    let edge_energy := cfg.mobile_power_transmit * wlan_delay * 2 +
      cfg.mobile_power_idle * (edge_processing + edge_queue_delay)
    let cloud_energy := cfg.mobile_power_transmit * wan_delay * 2 +
      cfg.mobile_power_idle * cloud_processing
    let dr :=
      match policy with
      | Policy.RANDOM =>
          let r := rng.headD 0
          ((if r < 0.33 then Loc.MOBILE
            else if r < 0.66 then Loc.EDGE else Loc.CLOUD), rng.tail)
      | Policy.GREEDY_ENERGY =>
          (pickMinQ [(Loc.MOBILE, local_energy), (Loc.EDGE, edge_energy),
            (Loc.CLOUD, cloud_energy)], rng)
      | Policy.GREEDY_DEADLINE =>
          (greedyDeadlineDirect local_time edge_time cloud_time, rng)
      | Policy.EDGE_ONLY =>
          ((if can_accept_task (servers.getD best dummyServer) then Loc.EDGE
            else Loc.CLOUD), rng)
      | Policy.EADC =>
          (eadcDecide cfg.alpha cfg.beta ev.delay_sens ev.deadline local_time
            edge_time cloud_time local_energy edge_energy cloud_energy
            (avgUtil servers ev.t)
            (can_accept_task (servers.getD best dummyServer)), rng)
    commitDecisionNoReject num_devices servers results dr.2 dr.1 best ev.t
      local_time wlan_delay edge_processing cloud_time local_energy
      edge_energy cloud_energy ev.deadline

/-- A full run over a time-ordered event list (the event loop of
`run_simulation`). -/
def runEvents (cfg : SimConfig) (policy : Policy) (num_devices : ℕ)
    (servers : List Server) (events : List Event) (rng : List ℚ) :
    List Server × Results × List ℚ :=
  events.foldl (processEvent cfg policy num_devices)
    (servers, emptyResults, rng)

/-- `np.mean(results['deadline_met']) if results['deadline_met'] else 0`:
the deadline-satisfaction rate of a run. -/
def deadlineRate (r : Results) : ℚ :=
  if r.deadline_met = [] then 0
  else r.deadline_met.sum / (r.deadline_met.length : ℚ)

/-- `consume` never lengthens a queue. -/
theorem consume_length_le (elapsed : ℚ) (l : List ℚ) :
    (consume elapsed l).length ≤ l.length := by
  induction l generalizing elapsed with
  | nil => simp [consume]
  | cons x xs ih =>
      unfold consume
      split_ifs with h1 h2
      · exact le_trans (ih (elapsed - x)) (Nat.le_succ _)
      · simp
      · simp

/-- On a server that can accept, `submit_task` takes its success branch:
no rejection, the processing time is appended, `next_available` moves to
the completion horizon and busy time accumulates. -/
theorem submit_task_of_accept (s : Server) (t p : ℚ)
    (h : can_accept_task s = true) :
    submit_task s t p =
      (some (max 0 (s.next_available - t) + s.queued_processing_times.sum + p),
       false,
       { s with
           queued_processing_times := s.queued_processing_times ++ [p]
           next_available := t + (max 0 (s.next_available - t) +
             s.queued_processing_times.sum + p)
           total_busy_time := s.total_busy_time + p }) := by
  unfold submit_task
  rw [if_neg (by simp [h])]

/-- On a server that cannot accept, `submit_task` rejects and returns
the state unchanged. -/
theorem submit_task_of_reject (s : Server) (t p : ℚ)
    (h : can_accept_task s = false) :
    submit_task s t p = (none, true, s) := by
  unfold submit_task
  rw [if_pos (by simp [h])]

/-- C3: for every edge server state satisfying the queue-capacity
invariant, `submit_task` signals rejection iff `can_accept_task` is
false; `can_accept_task` is false iff the queue length equals
`max_queue`; and a rejected `submit_task` leaves the server state
unchanged. -/
theorem submit_reject_iff (s : Server) (t p : ℚ)
    (hinv : get_queue_length s ≤ s.max_queue) :
    ((submit_task s t p).2.1 = true ↔ can_accept_task s = false)
    ∧ (can_accept_task s = false ↔ get_queue_length s = s.max_queue)
    ∧ ((submit_task s t p).2.1 = true → (submit_task s t p).2.2 = s) := by
  refine ⟨?_, ?_, ?_⟩
  · unfold submit_task
    by_cases h : can_accept_task s <;> simp [h]
  · unfold can_accept_task
    constructor
    · intro h
      simp only [decide_eq_false_iff_not, not_lt] at h
      omega
    · intro h
      simp only [decide_eq_false_iff_not, not_lt]
      omega
  · unfold submit_task
    by_cases h : can_accept_task s <;> simp [h]

/-- Witness for C3 at a concrete full server (queue `[2]`, depth 1). -/
theorem submit_reject_iff_witness :
    (get_queue_length ⟨0, 1000, 1, [2], 2, 2⟩ ≤ (1 : ℕ))
    ∧ (((submit_task ⟨0, 1000, 1, [2], 2, 2⟩ (1/2) 1).2.1 = true ↔
          can_accept_task ⟨0, 1000, 1, [2], 2, 2⟩ = false)
       ∧ (can_accept_task ⟨0, 1000, 1, [2], 2, 2⟩ = false ↔
          get_queue_length ⟨0, 1000, 1, [2], 2, 2⟩ = 1)
       ∧ ((submit_task ⟨0, 1000, 1, [2], 2, 2⟩ (1/2) 1).2.1 = true →
          (submit_task ⟨0, 1000, 1, [2], 2, 2⟩ (1/2) 1).2.2 =
            ⟨0, 1000, 1, [2], 2, 2⟩)) :=
  ⟨by decide, submit_reject_iff ⟨0, 1000, 1, [2], 2, 2⟩ (1/2) 1 (by decide)⟩

/-- C4 counterexample: in the spec's end-to-end scenario (one server,
`max_queue_depth = 1`, 1000 instr/s, a 2000-instruction task submitted
at `t = 0`, a second submit rejected at `t = 0.5`), the subsequent
`estimate_wait(1.0)` returns 3, not 1: the estimator adds the still
queued processing time 2 on top of the `next_available` remainder 1. -/
theorem c4_estimate_wait_counterexample :
    estimate_wait_time
      (submit_task ((submit_task (initServer 0 1000 1) 0 (2000 / 1000)).2.2)
        (1/2) 2).2.2 1 = 3 ∧ (3 : ℚ) ≠ 1 := by
  constructor
  · simp only [submit_task, initServer, estimate_wait_time, can_accept_task,
      get_queue_length]
    norm_num
  · norm_num

/-- C4 amended: same scenario, with the value the code actually
computes.  `submit(0, 2.0)` returns total time 2 and sets
`next_available = 2`; the second submit at `t = 0.5` is rejected with
the state unchanged; and `estimate_wait(1.0)` then returns 3
(= `max(0, 2 - 1) + 2`). -/
theorem c4_scenario :
    ((submit_task (initServer 0 1000 1) 0 (2000 / 1000)).1 = some 2)
    ∧ ((submit_task (initServer 0 1000 1) 0 (2000 / 1000)).2.1 = false)
    ∧ ((submit_task (initServer 0 1000 1) 0 (2000 / 1000)).2.2.next_available = 2)
    ∧ ((submit_task ((submit_task (initServer 0 1000 1) 0 (2000 / 1000)).2.2)
          (1/2) 2).2.1 = true)
    ∧ ((submit_task ((submit_task (initServer 0 1000 1) 0 (2000 / 1000)).2.2)
          (1/2) 2).2.2 = (submit_task (initServer 0 1000 1) 0 (2000 / 1000)).2.2)
    ∧ (estimate_wait_time
        (submit_task ((submit_task (initServer 0 1000 1) 0 (2000 / 1000)).2.2)
          (1/2) 2).2.2 1 = 3) := by
  refine ⟨?_, ?_, ?_, ?_, ?_, ?_⟩ <;>
    · simp only [submit_task, initServer, estimate_wait_time, can_accept_task,
        get_queue_length]
      norm_num

/-- C5: the queue-capacity invariant `queue length ≤ max_queue` holds
for a freshly initialized server and is preserved by `submit_task` and
by `update` (the remaining operations `estimate_wait_time`,
`can_accept_task` and `get_utilization` are read-only functions of the
state and mutate nothing). -/
theorem server_invariant_preserved :
    (∀ i m q, serverInv (initServer i m q))
    ∧ (∀ s t p, serverInv s → serverInv (submit_task s t p).2.2)
    ∧ (∀ s t, serverInv s → serverInv (update s t)) := by
  refine ⟨?_, ?_, ?_⟩
  · intro i m q
    simp [serverInv, initServer, get_queue_length]
  · intro s t p h
    unfold submit_task
    by_cases hc : can_accept_task s
    · have hlt : get_queue_length s < s.max_queue := by
        simpa [can_accept_task] using hc
      simp only [hc, not_true_eq_false, if_false, ite_false]
      simp [serverInv, get_queue_length] at hlt ⊢
      omega
    · simpa [hc] using h
  · intro s t h
    unfold serverInv get_queue_length at h ⊢
    by_cases h1 : s.next_available ≤ t
    · simp [update, h1, consume]
    · simp only [update, h1, if_false, ite_false]
      exact le_trans (consume_length_le _ _) h

/-- Witness for C5: the `submit_task` and `update` preservation parts
applied at a concrete server whose queue holds one entry. -/
theorem server_invariant_preserved_witness :
    serverInv (⟨0, 1000, 2, [1], 3, 1⟩ : Server)
    ∧ serverInv (submit_task ⟨0, 1000, 2, [1], 3, 1⟩ 0 1).2.2
    ∧ serverInv (update ⟨0, 1000, 2, [1], 3, 1⟩ 2) :=
  ⟨by decide,
   server_invariant_preserved.2.1 ⟨0, 1000, 2, [1], 3, 1⟩ 0 1 (by decide),
   server_invariant_preserved.2.2 ⟨0, 1000, 2, [1], 3, 1⟩ 2 (by decide)⟩

/-- C7: for a fixed time `now`, a successful `submit_task` with
nonnegative processing time on a server whose queued times are
nonnegative never decreases `estimate_wait_time` at `now`. -/
theorem estimate_wait_mono (s : Server) (t p : ℚ) (hp : 0 ≤ p)
    (hq : ∀ x ∈ s.queued_processing_times, 0 ≤ x)
    (hsucc : (submit_task s t p).2.1 = false) :
    estimate_wait_time s t ≤ estimate_wait_time (submit_task s t p).2.2 t := by
  have hS : 0 ≤ s.queued_processing_times.sum := List.sum_nonneg hq
  by_cases hc : can_accept_task s
  · rw [submit_task_of_accept s t p hc]
    unfold estimate_wait_time
    simp only [List.sum_append, List.sum_cons, List.sum_nil]
    have hw : 0 ≤ max 0 (s.next_available - t) := le_max_left 0 _
    set w := max 0 (s.next_available - t) with hwdef
    set S := s.queued_processing_times.sum
    have harg : t + (w + S + p) - t = w + S + p := by ring
    rw [harg, max_eq_right (by linarith : (0 : ℚ) ≤ w + S + p)]
    linarith
  · rw [submit_task_of_reject s t p (by simpa using hc)] at hsucc
    simp at hsucc

/-- Witness for C7 at a concrete server and submit. -/
theorem estimate_wait_mono_witness :
    (0 : ℚ) ≤ 2 ∧
    estimate_wait_time ⟨0, 1000, 3, [1], 2, 1⟩ 1 ≤
      estimate_wait_time (submit_task ⟨0, 1000, 3, [1], 2, 1⟩ 1 2).2.2 1 :=
  ⟨by norm_num,
   estimate_wait_mono ⟨0, 1000, 3, [1], 2, 1⟩ 1 2 (by norm_num)
     (by intro x hx; simp at hx; simp [hx])
     (by rw [submit_task_of_accept _ _ _ (by decide)])⟩

/-- The score dict lookup at the minimizing key returns the minimizing
pair's value. -/
theorem scoreAt_pickMinO (a b c : Option ℚ) :
    scoreAt a b c (pickMinO [(Loc.MOBILE, a), (Loc.EDGE, b),
      (Loc.CLOUD, c)]).1 =
    (pickMinO [(Loc.MOBILE, a), (Loc.EDGE, b), (Loc.CLOUD, c)]).2 := by
  simp only [pickMinO, List.foldl]
  split_ifs <;> rfl

/-- If the minimum of the three scores is `+∞`, all three scores are
`+∞`. -/
theorem pickMinO_none (a b c : Option ℚ)
    (h : (pickMinO [(Loc.MOBILE, a), (Loc.EDGE, b), (Loc.CLOUD, c)]).2
      = none) :
    a = none ∧ b = none ∧ c = none := by
  rcases a with _ | a <;> rcases b with _ | b <;> rcases c with _ | c <;>
    simp_all [pickMinO, List.foldl, oLt] <;>
    split_ifs at h <;> simp_all

/-- C1: the EADC decision never returns a location whose utility score
is `+∞` unless all three locations score `+∞`; and in that all-infeasible
case the returned location is the minimum-estimated-time fallback, which
excludes Edge exactly when the best edge server cannot accept the task.
(The decision always returns one of the three locations by the type of
`eadcDecide`.) -/
theorem eadc_no_infinite_choice (alpha beta delay_sens deadline local_time
    edge_time cloud_time local_energy edge_energy cloud_energy avg_util : ℚ)
    (canAccept : Bool)
    (h : scoreAt
        (eadcScores alpha beta delay_sens deadline local_time edge_time
          cloud_time local_energy edge_energy cloud_energy avg_util
          canAccept).1
        (eadcScores alpha beta delay_sens deadline local_time edge_time
          cloud_time local_energy edge_energy cloud_energy avg_util
          canAccept).2.1
        (eadcScores alpha beta delay_sens deadline local_time edge_time
          cloud_time local_energy edge_energy cloud_energy avg_util
          canAccept).2.2
        (eadcDecide alpha beta delay_sens deadline local_time edge_time
          cloud_time local_energy edge_energy cloud_energy avg_util
          canAccept) = none) :
    (eadcScores alpha beta delay_sens deadline local_time edge_time
      cloud_time local_energy edge_energy cloud_energy avg_util
      canAccept).1 = none
    ∧ (eadcScores alpha beta delay_sens deadline local_time edge_time
        cloud_time local_energy edge_energy cloud_energy avg_util
        canAccept).2.1 = none
    ∧ (eadcScores alpha beta delay_sens deadline local_time edge_time
        cloud_time local_energy edge_energy cloud_energy avg_util
        canAccept).2.2 = none
    ∧ eadcDecide alpha beta delay_sens deadline local_time edge_time
        cloud_time local_energy edge_energy cloud_energy avg_util
        canAccept =
      fallbackLoc local_time edge_time cloud_time canAccept := by
  set sc := eadcScores alpha beta delay_sens deadline local_time edge_time
    cloud_time local_energy edge_energy cloud_energy avg_util canAccept
    with hsc
  have hd : eadcDecide alpha beta delay_sens deadline local_time edge_time
      cloud_time local_energy edge_energy cloud_energy avg_util canAccept =
      (if scoreAt sc.1 sc.2.1 sc.2.2 (pickMinO [(Loc.MOBILE, sc.1),
          (Loc.EDGE, sc.2.1), (Loc.CLOUD, sc.2.2)]).1 = none then
        fallbackLoc local_time edge_time cloud_time canAccept
      else (pickMinO [(Loc.MOBILE, sc.1), (Loc.EDGE, sc.2.1),
        (Loc.CLOUD, sc.2.2)]).1) := by
    rw [eadcDecide.eq_def, ← hsc]
  by_cases hmin : scoreAt sc.1 sc.2.1 sc.2.2 (pickMinO [(Loc.MOBILE, sc.1),
      (Loc.EDGE, sc.2.1), (Loc.CLOUD, sc.2.2)]).1 = none
  · have hall := pickMinO_none sc.1 sc.2.1 sc.2.2
      (by rw [← scoreAt_pickMinO]; exact hmin)
    refine ⟨hall.1, hall.2.1, hall.2.2, ?_⟩
    rw [hd, if_pos hmin]
  · rw [hd, if_neg hmin] at h
    exact absurd h hmin

/-- Witness for C1 in the all-infeasible case: every location misses the
deadline and the best edge server is full, so every score is `+∞`, and
the decision is the Edge-excluding minimum-time fallback. -/
theorem eadc_no_infinite_choice_witness :
    (eadcScores 1 1 0 1 2 2 2 1 1 1 0 false).1 = none
    ∧ (eadcScores 1 1 0 1 2 2 2 1 1 1 0 false).2.1 = none
    ∧ (eadcScores 1 1 0 1 2 2 2 1 1 1 0 false).2.2 = none
    ∧ eadcDecide 1 1 0 1 2 2 2 1 1 1 0 false = fallbackLoc 2 2 2 false :=
  eadc_no_infinite_choice 1 1 0 1 2 2 2 1 1 1 0 false
    (by norm_num [eadcDecide, eadcScores, calc_score, fallbackLoc, pickMinO,
      oLt, scoreAt])

/-- C2: for a task with a positive deadline and a positive maximal
energy estimate, the EADC scores computed by the code agree with the
scoring formula stated by the spec. -/
theorem eadc_scores_spec_eq (alpha beta delay_sens deadline local_time
    edge_time cloud_time local_energy edge_energy cloud_energy
    avg_util : ℚ) (canAccept : Bool)
    (hdl : 0 < deadline)
    (hen : 0 < max (max local_energy edge_energy) cloud_energy) :
    eadcScores alpha beta delay_sens deadline local_time edge_time
      cloud_time local_energy edge_energy cloud_energy avg_util canAccept =
    eadcScoresSpec alpha beta delay_sens deadline local_time edge_time
      cloud_time local_energy edge_energy cloud_energy avg_util canAccept := by
  have htime : 0 < max (max (max local_time edge_time) cloud_time) deadline :=
    lt_of_lt_of_le hdl (le_max_right _ _)
  unfold eadcScores eadcScoresSpec calc_score
  simp only [if_pos htime, if_pos hen]
  have hw : alpha * (1 + delay_sens * 0.5) = alpha * (1 + 0.5 * delay_sens) := by
    ring
  have hb : beta * (1 - delay_sens * 0.3) = beta * (1 - 0.3 * delay_sens) := by
    ring
  rw [hw, hb]
  simp only [decide_eq_true_eq]

/-- Witness for C2 at concrete values with a positive deadline and
positive energies. -/
theorem eadc_scores_spec_eq_witness :
    (0 : ℚ) < 1 ∧ (0 : ℚ) < max (max 2 3) 4 ∧
    eadcScores (3/5) (2/5) (1/2) 1 (1/2) 2 (3/4) 2 3 4 80 true =
    eadcScoresSpec (3/5) (2/5) (1/2) 1 (1/2) 2 (3/4) 2 3 4 80 true :=
  ⟨by norm_num, by norm_num,
   eadc_scores_spec_eq (3/5) (2/5) (1/2) 1 (1/2) 2 (3/4) 2 3 4 80 true
     (by norm_num) (by norm_num)⟩

/-- C9: the deadline-filtering GreedyDeadline variant and the direct
minimum-time variant agree on every triple of estimated times and every
deadline, and the location they return has minimal estimated completion
time among the three options. -/
theorem greedy_deadline_variants_eq (local_time edge_time cloud_time
    deadline : ℚ) :
    greedyDeadlineFiltered local_time edge_time cloud_time deadline =
      greedyDeadlineDirect local_time edge_time cloud_time
    ∧ (∀ loc, timeAt local_time edge_time cloud_time
        (greedyDeadlineDirect local_time edge_time cloud_time) ≤
        timeAt local_time edge_time cloud_time loc) := by
  constructor
  · unfold greedyDeadlineFiltered greedyDeadlineDirect pickMinQ
    simp only [List.filter]
    by_cases h1 : local_time ≤ deadline <;>
      by_cases h2 : edge_time ≤ deadline <;>
      by_cases h3 : cloud_time ≤ deadline <;>
      simp only [h1, h2, h3, decide_true_eq_true, decide_false_eq_false,
        decide_eq_true_eq, if_true, if_false, decide_eq_false_iff_not,
        List.foldl] <;>
      split_ifs <;> first
        | rfl
        | (exfalso; omega)
        | (exfalso; linarith)
  · intro loc
    unfold greedyDeadlineDirect pickMinQ
    simp only [List.foldl]
    rcases loc <;> split_ifs <;> simp [timeAt] <;> linarith

/-- The commit stage never takes the post-`submit_task` rejection
branch: after the `can_accept_task` pre-check on the same unmutated
server, `submit_task` always succeeds, so the commit stage equals its
rejection-free variant. -/
theorem commitDecision_eq_noReject (num_devices : ℕ)
    (servers : List Server) (results : Results) (rng : List ℚ)
    (decision : Loc) (best : ℕ)
    (t local_time wlan_delay edge_processing cloud_time local_energy
      edge_energy cloud_energy deadline : ℚ) :
    commitDecision num_devices servers results rng decision best t
      local_time wlan_delay edge_processing cloud_time local_energy
      edge_energy cloud_energy deadline =
    commitDecisionNoReject num_devices servers results rng decision best t
      local_time wlan_delay edge_processing cloud_time local_energy
      edge_energy cloud_energy deadline := by
  cases decision
  · rfl
  · simp only [commitDecision, commitDecisionNoReject]
    by_cases h : can_accept_task (servers.getD best dummyServer) = true
    · rw [if_neg (not_not_intro h), if_neg (not_not_intro h),
        submit_task_of_accept _ _ _ h]
      simp
    · rw [if_pos h, if_pos h]
  · rfl

/-- C10: in the aggregator loop, `submit_task` is only reached right
after `can_accept_task` returned true on the same server with no
intervening mutation, so its rejection branch (failure counter bump and
skip) is unreachable: one loop iteration is extensionally equal to the
iteration with that branch deleted, for every configuration, policy,
device count, state and event.  Edge-queue-full events are consequently
handled only by the pre-check that re-routes to Cloud and counts an
edge rejection. -/
theorem processEvent_no_submit_reject (cfg : SimConfig) (policy : Policy)
    (num_devices : ℕ) (st : List Server × Results × List ℚ) (ev : Event) :
    processEvent cfg policy num_devices st ev =
    processEventNoReject cfg policy num_devices st ev := by
  simp only [processEvent, processEventNoReject,
    commitDecision_eq_noReject]

/-- C6 amended: a task arriving strictly before the warm-up period is
skipped entirely: no statistics are recorded, no decision is made and no
admission occurs; the only side effect of the iteration is advancing
every server's clock via `update`. -/
theorem warmup_skips_entirely (cfg : SimConfig) (policy : Policy)
    (num_devices : ℕ) (st : List Server × Results × List ℚ) (ev : Event)
    (h : ev.t < cfg.warm_up_period) :
    processEvent cfg policy num_devices st ev =
    ((st.1).map (fun s => update s ev.t), st.2.1, st.2.2) := by
  unfold processEvent
  rw [if_pos h]

/-- Witness for the amended C6 at a concrete pre-warm-up event. -/
theorem warmup_skips_entirely_witness :
    ((5 : ℚ) < 10) ∧
    processEvent { warm_up_period := 10 } Policy.EDGE_ONLY 0
      ([initServer 0 8000 15], emptyResults, [0, 0, 1/2]) ⟨5, 800, 0, 100, 0⟩ =
    ([update (initServer 0 8000 15) 5], emptyResults, [0, 0, 1/2]) :=
  ⟨by norm_num,
   warmup_skips_entirely { warm_up_period := 10 } Policy.EDGE_ONLY 0
     ([initServer 0 8000 15], emptyResults, [0, 0, 1/2]) ⟨5, 800, 0, 100, 0⟩
     (by norm_num)⟩

/-- On a one-server list the best-server index is 0. -/
theorem bestIdx_singleton (s : Server) (t : ℚ) : bestIdx [s] t = 0 := rfl

/-- Advancing a freshly initialized server to any nonnegative time
leaves it unchanged (nothing queued, nothing to consume). -/
theorem update_fresh (i : ℕ) (m : ℚ) (q : ℕ) (t : ℚ) (ht : 0 ≤ t) :
    update (initServer i m q) t = initServer i m q := by
  simp [update, initServer, consume, ht]

/-- C6 counterexample: a task arriving at `t = 5`, before a warm-up
period of 10, under the `EDGE_ONLY` policy with an accepting edge
server.  The claim predicts the decision is made and edge admission
occurs as for a post-warm-up task; in the code the iteration leaves the
edge queue empty and the statistics untouched, whereas the identical
event processed with warm-up 0 admits the task into the queue. -/
theorem c6_warmup_counterexample :
    ((runEvents { warm_up_period := 10 } Policy.EDGE_ONLY 0
        [initServer 0 8000 15] [⟨5, 800, 0, 100, 0⟩] [0, 0, 1/2]).1.map
          (fun s => s.queued_processing_times) = [[]])
    ∧ ((runEvents { warm_up_period := 10 } Policy.EDGE_ONLY 0
        [initServer 0 8000 15] [⟨5, 800, 0, 100, 0⟩] [0, 0, 1/2]).2.1 =
        emptyResults)
    ∧ ((runEvents { warm_up_period := 0 } Policy.EDGE_ONLY 0
        [initServer 0 8000 15] [⟨5, 800, 0, 100, 0⟩] [0, 0, 1/2]).1.map
          (fun s => s.queued_processing_times) = [[1/10]]) := by
  have h1 : update (initServer 0 8000 15) 5 = initServer 0 8000 15 :=
    update_fresh 0 8000 15 5 (by norm_num)
  refine ⟨?_, ?_, ?_⟩
  · simp only [runEvents, List.foldl, processEvent, List.map, h1]
    norm_num [initServer]
  · simp only [runEvents, List.foldl, processEvent, List.map, h1]
    norm_num
  · simp only [runEvents, List.foldl, processEvent, List.map, h1]
    rw [if_neg (by norm_num)]
    simp only [bestIdx_singleton]
    norm_num [commitDecision, recordOutcome, emptyResults, initServer,
      estimate_wait_time, can_accept_task, get_queue_length,
      submit_task, dummyServer, List.getD_cons_zero, List.foldl]

/-- C8 counterexample: one post-warm-up task on identical task streams
and identical (fresh) server state at the decision point; the
GreedyDeadline run draws a high service-time jitter and misses the
deadline (rate 0), while the Random run picks Cloud with a low jitter
and meets it (rate 1), so GreedyDeadline's deadline-satisfaction rate is
strictly below Random's. -/
theorem c8_rate_counterexample :
    deadlineRate (runEvents
        { warm_up_period := 0, mobile_mips := 1000, edge_mips := 100,
          cloud_mips := 1000, wlan_bandwidth := 1, wan_bandwidth := 1,
          wan_propagation_delay := 1/40 }
        Policy.GREEDY_DEADLINE 0 [initServer 0 100 1]
        [⟨1, 1000, 0, 21/20, 0⟩] [1, 0, 1/2]).2.1 <
    deadlineRate (runEvents
        { warm_up_period := 0, mobile_mips := 1000, edge_mips := 100,
          cloud_mips := 1000, wlan_bandwidth := 1, wan_bandwidth := 1,
          wan_propagation_delay := 1/40 }
        Policy.RANDOM 0 [initServer 0 100 1]
        [⟨1, 1000, 0, 21/20, 0⟩] [9/10, 0, 0, 1/2]).2.1 := by
  have h1 : update (initServer 0 100 1) 1 = initServer 0 100 1 :=
    update_fresh 0 100 1 1 (by norm_num)
  have hg : deadlineRate (runEvents
      { warm_up_period := 0, mobile_mips := 1000, edge_mips := 100,
        cloud_mips := 1000, wlan_bandwidth := 1, wan_bandwidth := 1,
        wan_propagation_delay := 1/40 }
      Policy.GREEDY_DEADLINE 0 [initServer 0 100 1]
      [⟨1, 1000, 0, 21/20, 0⟩] [1, 0, 1/2]).2.1 = 0 := by
    simp only [runEvents, List.foldl, processEvent, List.map, h1]
    rw [if_neg (by norm_num)]
    simp only [bestIdx_singleton]
    norm_num [commitDecision, recordOutcome, emptyResults, initServer,
      estimate_wait_time, can_accept_task, get_queue_length,
      submit_task, dummyServer, List.getD_cons_zero, List.foldl,
      greedyDeadlineDirect, pickMinQ, deadlineRate]
  have hr : deadlineRate (runEvents
      { warm_up_period := 0, mobile_mips := 1000, edge_mips := 100,
        cloud_mips := 1000, wlan_bandwidth := 1, wan_bandwidth := 1,
        wan_propagation_delay := 1/40 }
      Policy.RANDOM 0 [initServer 0 100 1]
      [⟨1, 1000, 0, 21/20, 0⟩] [9/10, 0, 0, 1/2]).2.1 = 1 := by
    simp only [runEvents, List.foldl, processEvent, List.map, h1]
    rw [if_neg (by norm_num)]
    simp only [bestIdx_singleton]
    norm_num [commitDecision, recordOutcome, emptyResults, initServer,
      estimate_wait_time, can_accept_task, get_queue_length,
      submit_task, dummyServer, List.getD_cons_zero, List.foldl,
      deadlineRate]
  rw [hg, hr]
  norm_num

/-- C8 amended: at a single decision point with identical task and
server state (hence identical estimated times), the location chosen by
GreedyDeadline has estimated completion time less than or equal to that
of any location Random may return; the realized per-run
deadline-satisfaction rates, which additionally involve independent
multiplicative jitter, are not ordered in general. -/
theorem greedy_deadline_time_dominates (local_time edge_time
    cloud_time : ℚ) (loc : Loc) :
    timeAt local_time edge_time cloud_time
      (greedyDeadlineDirect local_time edge_time cloud_time) ≤
    timeAt local_time edge_time cloud_time loc := by
  unfold greedyDeadlineDirect pickMinQ
  simp only [List.foldl]
  rcases loc <;> split_ifs <;> simp [timeAt] <;> linarith
